import Mathlib

/-!
Shallow embedding of the nullability-inference core of
`lib/StaticAnalyzer/Checkers/NullabilityChecker.cpp`.

The checker is event-driven: the path-sensitive engine invokes one callback
per program construct; each callback reads the current immutable program
state, possibly consults the constraint solver, and either leaves the state
unchanged, commits a new state via `addTransition`, or emits a diagnostic
(on an ordinary transition node or on a sink node, the latter stopping
exploration of the path).

Collaborator data (types, regions, symbolic values, solver verdicts) is
modelled as opaque structured inputs; the checker's own control flow and
state updates are translated branch-for-branch from the C++ source.
-/

namespace NullabilityCheckerModel

/-- Statements and expressions are identified opaquely, mirroring `Stmt *`
pointer identity in the source. -/
abbrev StmtId := Nat

/-- `StringRef`s (names, paths) as character lists, so that the textual
heuristics of the checker stay executable. -/
abbrev StrRef := List Char

/-- `StringRef::startswith`. -/
def strStartsWith : StrRef → StrRef → Bool
  | _, [] => true
  | [], _ :: _ => false
  | c :: cs, p :: ps => c == p && strStartsWith cs ps

/-- `StringRef::find(Pat) != StringRef::npos`. -/
def strContains : StrRef → StrRef → Bool
  | [], pat => strStartsWith [] pat
  | s :: rest, pat => strStartsWith (s :: rest) pat || strContains rest pat

/-- The four-valued nullability lattice. Do not reorder: `getMostNullable`
relies on the underlying order, exactly as the C++ `enum class Nullability :
char` relies on its enumerator values. -/
inductive Nullability where
  | Contradicted
  | Nullable
  | Unspecified
  | Nonnull
deriving DecidableEq, Repr

/-- The `char` value of each enumerator of `Nullability`. -/
def Nullability.toChar : Nullability → Nat
  | .Contradicted => 0
  | .Nullable => 1
  | .Unspecified => 2
  | .Nonnull => 3

/-- Converse of `Nullability.toChar`, the `static_cast<Nullability>` of the
source (only ever applied to values 0..3). -/
def Nullability.ofChar : Nat → Nullability
  | 0 => .Contradicted
  | 1 => .Nullable
  | 2 => .Unspecified
  | _ => .Nonnull

/-- `getMostNullable`: the minimum of the two operands under the enumerator
order, `static_cast<Nullability>(std::min(char(Lhs), char(Rhs)))`. -/
def getMostNullable (lhs rhs : Nullability) : Nullability :=
  Nullability.ofChar (min lhs.toChar rhs.toChar)

/-- The seven error kinds, in `ErrorMessages` index order. -/
inductive ErrorKind where
  | NilAssignedToNonnull
  | NilPassedToNonnull
  | NilReturnedToNonnull
  | NullableAssignedToNonnull
  | NullableReturnedToNonnull
  | NullableDereferenced
  | NullablePassedToNonnull
deriving DecidableEq, Repr

/-- The nullability attribute carried by an `AttributedType`, when the type
is attributed at all (`attr_nullable`, `attr_nonnull`, or some unrelated
attribute kind). -/
inductive AttrKind where
  | attrNullable
  | attrNonnull
  | attrOther
deriving DecidableEq, Repr

/-- The slice of `QualType` the checker inspects: pointer-ness,
reference-ness, and the optional type attribute. -/
structure QualType where
  isAnyPointerType : Bool
  isReferenceType : Bool
  attrType : Option AttrKind
deriving DecidableEq, Repr

/-- `getNullabilityAnnotation` of the source: read the static nullability
attribute off a type, `Unspecified` when absent or unrelated. -/
def getNullabilityAnnot (type : QualType) : Nullability :=
  match type.attrType with
  | none => .Unspecified
  | some .attrNullable => .Nullable
  | some .attrNonnull => .Nonnull
  | some .attrOther => .Unspecified

/-- Memory regions, by pointer identity. `symbolic` stands for
`SymbolicRegion`; `typedValue` for a `TypedValueRegion` carrying its value
type (e.g. a `VarRegion`); `fieldR`/`elementR` for `FieldRegion` /
`ElementRegion` with their super-region; `other` for any other kind. -/
inductive MemRegion where
  | symbolic (id : Nat)
  | typedValue (id : Nat) (valueType : QualType)
  | fieldR (id : Nat) (superR : MemRegion)
  | elementR (id : Nat) (superR : MemRegion)
  | other (id : Nat)
deriving DecidableEq, Repr

/-- `dyn_cast<SymbolicRegion>`. -/
def MemRegion.dynCastSymbolic : MemRegion → Option MemRegion
  | .symbolic id => some (.symbolic id)
  | _ => none

/-- `dyn_cast_or_null<TypedValueRegion>` followed by `getValueType`. -/
def MemRegion.typedValueType : MemRegion → Option QualType
  | .typedValue _ t => some t
  | _ => none

/-- The slice of `SVal` the checker reads: whether
`getAs<DefinedOrUnknownSVal>()` succeeds, the wrapped region of a
`loc::MemRegionVal` (also the result of `getAsRegion`), and the type of the
wrapped symbol when `getAsSymbol()` yields one. -/
structure SVal where
  isDefinedOrUnknown : Bool
  asRegion : Option MemRegion
  asSymbolType : Option QualType
deriving DecidableEq, Repr

/-- `UnknownVal()`: defined-or-unknown, wraps no region and no symbol. This
is what `CallEvent::getArgSVal` produces past the actual arguments. -/
def unknownVal : SVal := ⟨true, none, none⟩

/-- `getTrackRegion(Val, CheckSuperRegion)` of the source: the wrapped
symbolic region of an `SVal`, resolving field/element regions to their
owning super-region when `checkSuperRegion` is set. -/
def getTrackRegion (val : SVal) (checkSuperRegion : Bool) : Option MemRegion :=
  match val.asRegion with
  | none => none
  | some region =>
    if checkSuperRegion then
      match region with
      | .fieldR _ superR => superR.dynCastSymbolic
      | .elementR _ superR => superR.dynCastSymbolic
      | _ => region.dynCastSymbolic
    else region.dynCastSymbolic

/-- `NullabilityState`: an inferred nullability plus the optional statement
that caused the inference. -/
structure NullabilityState where
  value : Nullability
  src : Option StmtId
deriving DecidableEq, Repr

/-- The persistent map `NullabilityMap : const MemRegion * → NullabilityState`,
as an association list keyed by region identity. -/
abbrev NullMapT := List (MemRegion × NullabilityState)

/-- `State->get<NullabilityMap>(R)`. -/
def lookupNM (m : NullMapT) (r : MemRegion) : Option NullabilityState :=
  match m with
  | [] => none
  | (r', v) :: rest => if r' = r then some v else lookupNM rest r

/-- `State->set<NullabilityMap>(R, V)`: replace the binding of `R`, or add
it when absent. -/
def setNM (m : NullMapT) (r : MemRegion) (v : NullabilityState) : NullMapT :=
  match m with
  | [] => [(r, v)]
  | (r', v') :: rest => if r' = r then (r, v) :: rest else (r', v') :: setNM rest r v

/-- `State->remove<NullabilityMap>(R)`. -/
def removeNM (m : NullMapT) (r : MemRegion) : NullMapT :=
  match m with
  | [] => []
  | (r', v') :: rest => if r' = r then removeNM rest r else (r', v') :: removeNM rest r

/-- The solver's `ConditionTruthVal` for `State->isNull(Val)`. -/
inductive ConditionTruthVal where
  | constrainedTrue
  | constrainedFalse
  | underconstrained
deriving DecidableEq, Repr

/-- `NullConstraint`. -/
inductive NullConstraint where
  | IsNull
  | IsNotNull
  | Unknown
deriving DecidableEq, Repr

/-- The program state as seen by this checker: the nullability map plus the
constraint solver's verdict `State->isNull` on symbolic values. Updates made
by the checker touch only the map. -/
structure ProgramState where
  nullabilityMap : NullMapT
  isNull : SVal → ConditionTruthVal

/-- `getNullConstraint(Val, State)` of the source. -/
def getNullConstraint (val : SVal) (state : ProgramState) : NullConstraint :=
  match state.isNull val with
  | .constrainedFalse => .IsNotNull
  | .constrainedTrue => .IsNull
  | .underconstrained => .Unknown

/-- The per-check-family enable flags of `NullabilityChecksFilter`. -/
structure NullabilityChecksFilter where
  checkNullPassedToNonnull : Bool
  checkNullReturnedFromNonnull : Bool
  checkNullableDereferenced : Bool
  checkNullablePassedToNonnull : Bool
  checkNullableReturnedFromNonnull : Bool
deriving DecidableEq, Repr

/-- The configuration with all five checkers registered (every
`REGISTER_CHECKER` expansion ran). -/
def allChecks : NullabilityChecksFilter := ⟨true, true, true, true, true⟩

/-- A diagnostic as passed to `reportBug`: the error kind, the interesting
region (when one is supplied), and the cited value expression. -/
structure BugReportInfo where
  errorKind : ErrorKind
  region : Option MemRegion
  valueExpr : Option StmtId
deriving DecidableEq, Repr

/-- What a callback did to the engine: the map of the state passed to
`addTransition`/`generateSink` when one of them was called, whether the
added node was a sink (`generateSink`), and the emitted report. -/
structure CheckerEffect where
  committed : Option NullMapT
  isSink : Bool
  report : Option BugReportInfo
deriving DecidableEq, Repr

/-- A callback that returned without adding a node or a report. -/
def noEffect : CheckerEffect := ⟨none, false, none⟩

/-- The nullability map of the path after the callback ran: the committed
map when a transition (or sink) was added, the original map otherwise. -/
def CheckerEffect.resultMap (e : CheckerEffect) (orig : NullMapT) : NullMapT :=
  e.committed.getD orig

/-- The loop body of `checkDeadSymbols`: iterate over a snapshot of the map,
removing from the local `State` every region the `SymbolReaper` does not
report live. -/
def checkDeadSymbolsLocalState (isLiveRegion : MemRegion → Bool) (m : NullMapT) : NullMapT :=
  m.foldl (fun st e => if isLiveRegion e.1 then st else removeNM st e.1) m

/-- `checkDeadSymbols`: the source computes the swept `State` into a local
variable and returns without calling `C.addTransition`, so the callback
commits nothing to the path. -/
def checkDeadSymbols (isLiveRegion : MemRegion → Bool) (state : ProgramState) : CheckerEffect :=
  let _State := checkDeadSymbolsLocalState isLiveRegion state.nullabilityMap
  noEffect

/-- Inputs of `checkPreStmt(const ReturnStmt *S, ...)`: the returned
expression's type when there is one, `State->getSVal(S, LCtx)`, and the
enclosing function's declared return type when `getFunctionType()` is
non-null. -/
structure ReturnStmtInfo where
  stmtId : StmtId
  retExprType : Option QualType
  retSVal : SVal
  funcReturnType : Option QualType
deriving Repr

/-- `checkPreStmt` for return statements. -/
def checkPreStmt (filter : NullabilityChecksFilter) (s : ReturnStmtInfo)
    (state : ProgramState) : CheckerEffect :=
  match s.retExprType with
  | none => noEffect
  | some retType =>
    if ¬ retType.isAnyPointerType then noEffect
    else if ¬ s.retSVal.isDefinedOrUnknown then noEffect
    else match s.funcReturnType with
      | none => noEffect
      | some funcRetType =>
        let nullness := getNullConstraint s.retSVal state
        let staticNullability := getNullabilityAnnot funcRetType
        if filter.checkNullReturnedFromNonnull ∧ nullness = .IsNull ∧
            staticNullability = .Nonnull then
          -- C.addTransition(State, C.getPredecessor(), &Tag): an ordinary node.
          ⟨some state.nullabilityMap, false, some ⟨.NilReturnedToNonnull, none, some s.stmtId⟩⟩
        else match getTrackRegion s.retSVal false with
          | none => noEffect
          | some region =>
            match lookupNM state.nullabilityMap region with
            | some tracked =>
              if filter.checkNullableReturnedFromNonnull ∧ nullness ≠ .IsNotNull ∧
                  tracked.value = .Nullable ∧ staticNullability = .Nonnull then
                ⟨some state.nullabilityMap, false,
                  some ⟨.NullableReturnedToNonnull, some region, none⟩⟩
              else noEffect
            | none =>
              if staticNullability = .Nullable then
                ⟨some (setNM state.nullabilityMap region ⟨staticNullability, some s.stmtId⟩),
                  false, none⟩
              else noEffect

/-- A formal parameter: its type and whether it is a parameter pack. -/
structure ParmVarDecl where
  type : QualType
  isParameterPack : Bool
deriving DecidableEq, Repr

/-- An argument expression with its static type. -/
structure Expr where
  exprId : StmtId
  type : QualType
deriving DecidableEq, Repr

/-- The slice of `CallEvent` read by `checkPreCall`. -/
structure CallEventInfo where
  hasDecl : Bool
  params : List ParmVarDecl
  argExprs : List Expr
  argSVals : List SVal
deriving Repr

/-- `Call.getNumArgs()`. -/
def CallEventInfo.getNumArgs (c : CallEventInfo) : Nat := c.argExprs.length

/-- `Call.getArgExpr(Idx)`. -/
def CallEventInfo.getArgExpr (c : CallEventInfo) (i : Nat) : Option Expr := c.argExprs.get? i

/-- `Call.getArgSVal(Idx)`: `UnknownVal()` past the actual arguments. -/
def CallEventInfo.getArgSVal (c : CallEventInfo) (i : Nat) : SVal := c.argSVals.getD i unknownVal

/-- The end-of-loop commit of `checkPreCall`:
`if (State != OrigState) C.addTransition(State)`. -/
def finishPreCall (origMap accMap : NullMapT) : CheckerEffect :=
  if accMap ≠ origMap then ⟨some accMap, false, none⟩ else noEffect

/-- The parameter loop of `checkPreCall`, threading the locally accumulated
`State` (whose map is `accMap`). `none` models the undefined behaviour of
evaluating `ArgExpr->getType()` when `ArgExpr` is the null pointer. -/
def checkPreCallLoop (filter : NullabilityChecksFilter) (call : CallEventInfo)
    (state : ProgramState) :
    List ParmVarDecl → Nat → NullMapT → Option CheckerEffect
  | [], _, accMap => some (finishPreCall state.nullabilityMap accMap)
  | param :: rest, idx, accMap =>
    if param.isParameterPack then some (finishPreCall state.nullabilityMap accMap)
    else
      let argExpr := if idx < call.getNumArgs then call.getArgExpr idx else none
      let argSVal := call.getArgSVal idx
      if ¬ argSVal.isDefinedOrUnknown then
        checkPreCallLoop filter call state rest (idx + 1) accMap
      else if ¬ param.type.isAnyPointerType ∧ ¬ param.type.isReferenceType then
        checkPreCallLoop filter call state rest (idx + 1) accMap
      else
        let nullness := getNullConstraint argSVal state
        let paramNullability := getNullabilityAnnot param.type
        -- ArgStaticNullability = getNullabilityAnnotation(ArgExpr->getType());
        -- ArgExpr can still be the null pointer here.
        match argExpr with
        | none => none
        | some ae =>
          let argStaticNullability := getNullabilityAnnot ae.type
          if filter.checkNullPassedToNonnull ∧ nullness = .IsNull ∧
              argStaticNullability ≠ .Nonnull ∧ paramNullability = .Nonnull then
            some ⟨some accMap, true, some ⟨.NilPassedToNonnull, none, some ae.exprId⟩⟩
          else match getTrackRegion argSVal false with
            | none => checkPreCallLoop filter call state rest (idx + 1) accMap
            | some region =>
              match lookupNM accMap region with
              | some tracked =>
                if nullness = .IsNotNull ∨ tracked.value ≠ .Nullable then
                  checkPreCallLoop filter call state rest (idx + 1) accMap
                else if filter.checkNullablePassedToNonnull ∧ paramNullability = .Nonnull then
                  some ⟨some accMap, true,
                    some ⟨.NullablePassedToNonnull, some region, some ae.exprId⟩⟩
                else if filter.checkNullableDereferenced ∧ param.type.isReferenceType then
                  some ⟨some accMap, true,
                    some ⟨.NullableDereferenced, some region, some ae.exprId⟩⟩
                else checkPreCallLoop filter call state rest (idx + 1) accMap
              | none =>
                if argStaticNullability ≠ .Nullable then
                  checkPreCallLoop filter call state rest (idx + 1) accMap
                else
                  checkPreCallLoop filter call state rest (idx + 1)
                    (setNM accMap region ⟨argStaticNullability, some ae.exprId⟩)

/-- `checkPreCall`. -/
def checkPreCall (filter : NullabilityChecksFilter) (call : CallEventInfo)
    (state : ProgramState) : Option CheckerEffect :=
  if ¬ call.hasDecl then some noEffect
  else checkPreCallLoop filter call state call.params 0 state.nullabilityMap

/-- `CallEvent::getKind`, reduced to the distinction `checkPostCall` makes. -/
inductive CallKind where
  | ordinary
  | objCMessage
deriving DecidableEq, Repr

/-- The slice of a post-call event read by `checkPostCall`. `declFilename`
is `llvm::sys::path::filename` of the callee declaration's spelling
location. -/
structure PostCallInfo where
  hasDecl : Bool
  kind : CallKind
  funcReturnType : Option QualType
  returnValue : SVal
  declFilename : StrRef
deriving Repr

/-- `checkPostCall`. -/
def checkPostCall (call : PostCallInfo) (state : ProgramState) : CheckerEffect :=
  if ¬ call.hasDecl then noEffect
  else if call.kind = .objCMessage then noEffect
  else match call.funcReturnType with
    | none => noEffect
    | some returnType =>
      if ¬ returnType.isAnyPointerType then noEffect
      else match getTrackRegion call.returnValue false with
        | none => noEffect
        | some region =>
          if strStartsWith call.declFilename ['C', 'G'] then
            ⟨some (setNM state.nullabilityMap region ⟨.Contradicted, none⟩), false, none⟩
          else match lookupNM state.nullabilityMap region with
            | some _ => noEffect
            | none =>
              if getNullabilityAnnot returnType = .Nullable then
                ⟨some (setNM state.nullabilityMap region ⟨.Nullable, none⟩), false, none⟩
              else noEffect

/-- `ObjCMessageKind`, reduced to the distinction the checker makes. -/
inductive ObjCMessageKind where
  | propertyAccess
  | subscriptAccess
  | messageSend
deriving DecidableEq, Repr

/-- The slice of `ObjCMethodCall` read by `checkPostObjCMessage` and
`getReceiverNullability`. `interfaceName` is `""` when the method has no
class interface; `instanceReceiver` is `Message->getInstanceReceiver()`,
which can be null. -/
structure ObjCMethodCallInfo where
  hasDecl : Bool
  returnType : QualType
  returnValue : SVal
  interfaceName : StrRef
  isInstanceMessage : Bool
  firstSelectorSlot : StrRef
  paramNames : List StrRef
  isReceiverSelfOrSuper : Bool
  receiverSVal : SVal
  messageKind : ObjCMessageKind
  wasInlined : Bool
  messageId : StmtId
  instanceReceiver : Option StmtId
deriving Repr

/-- `getReceiverNullability`. -/
def getReceiverNullability (m : ObjCMethodCallInfo) (state : ProgramState) : Nullability :=
  if m.isReceiverSelfOrSuper then Nullability.Nonnull
  else
    let retNullability :=
      match m.receiverSVal.asRegion with
      | some selfRegion =>
        match lookupNM state.nullabilityMap selfRegion with
        | some trackedSelfNullability => trackedSelfNullability.value
        | none => Nullability.Unspecified
      | none => Nullability.Unspecified
    if m.receiverSVal.isDefinedOrUnknown then
      if getNullConstraint m.receiverSVal state = .IsNotNull then Nullability.Nonnull
      else retNullability
    else retNullability

/-- The static pattern literals of the Cocoa suppression heuristics. -/
def nsPat : StrRef := ['N', 'S']

/-- The `"Dictionary"` interface-name pattern. -/
def dictionaryPat : StrRef := ['D', 'i', 'c', 't', 'i', 'o', 'n', 'a', 'r', 'y']

/-- The `"Array"` interface-name pattern. -/
def arrayPat : StrRef := ['A', 'r', 'r', 'a', 'y']

/-- The `"String"` interface-name pattern. -/
def stringPat : StrRef := ['S', 't', 'r', 'i', 'n', 'g']

/-- The `"firstObject"` selector slot. -/
def firstObjectSel : StrRef := ['f', 'i', 'r', 's', 't', 'O', 'b', 'j', 'e', 'c', 't']

/-- The `"lastObject"` selector slot. -/
def lastObjectSel : StrRef := ['l', 'a', 's', 't', 'O', 'b', 'j', 'e', 'c', 't']

/-- The `"encoding"` parameter name. -/
def encodingName : StrRef := ['e', 'n', 'c', 'o', 'd', 'i', 'n', 'g']

/-- `checkPostObjCMessage`. -/
def checkPostObjCMessage (m : ObjCMethodCallInfo) (state : ProgramState) : CheckerEffect :=
  if ¬ m.hasDecl then noEffect
  else if ¬ m.returnType.isAnyPointerType then noEffect
  else match getTrackRegion m.returnValue false with
    | none => noEffect
    | some returnRegion =>
      if strStartsWith m.interfaceName nsPat ∧ m.isInstanceMessage ∧
          strContains m.interfaceName dictionaryPat then
        ⟨some (setNM state.nullabilityMap returnRegion ⟨.Contradicted, none⟩), false, none⟩
      else if strStartsWith m.interfaceName nsPat ∧
          strContains m.interfaceName arrayPat ∧
          (m.firstSelectorSlot = firstObjectSel ∨ m.firstSelectorSlot = lastObjectSel) then
        ⟨some (setNM state.nullabilityMap returnRegion ⟨.Contradicted, none⟩), false, none⟩
      else if strStartsWith m.interfaceName nsPat ∧
          strContains m.interfaceName stringPat ∧
          m.paramNames.contains encodingName then
        ⟨some (setNM state.nullabilityMap returnRegion ⟨.Contradicted, none⟩), false, none⟩
      else
        let selfNullability := getReceiverNullability m state
        match lookupNM state.nullabilityMap returnRegion with
        | some nullabilityOfReturn =>
          let retValTracked := nullabilityOfReturn.value
          let computedNullab := getMostNullable retValTracked selfNullability
          if computedNullab ≠ retValTracked ∧ computedNullab ≠ .Unspecified then
            let nullabilitySource :=
              if computedNullab = retValTracked then nullabilityOfReturn.src
              else m.instanceReceiver
            ⟨some (setNM state.nullabilityMap returnRegion
              ⟨computedNullab, nullabilitySource⟩), false, none⟩
          else noEffect
        | none =>
          let retNullabilityStatic := getNullabilityAnnot m.returnType
          let retNullability :=
            if m.messageKind = .propertyAccess ∧ ¬ m.wasInlined then Nullability.Nonnull
            else retNullabilityStatic
          let computedNullab := getMostNullable retNullability selfNullability
          if computedNullab = .Nullable then
            let nullabilitySource :=
              if computedNullab = retNullability then some m.messageId
              else m.instanceReceiver
            ⟨some (setNM state.nullabilityMap returnRegion
              ⟨computedNullab, nullabilitySource⟩), false, none⟩
          else noEffect

/-- The slice of an `ExplicitCastExpr` read by `checkPostStmt`: the source
and destination types and `State->getSVal(CE, LCtx)`. -/
structure ExplicitCastExprInfo where
  castId : StmtId
  subExprType : QualType
  destType : QualType
  castSVal : SVal
deriving Repr

/-- `checkPostStmt` for explicit casts. `none` models the undefined
behaviour of dereferencing the empty `Optional` returned by
`getAs<DefinedOrUnknownSVal>()`. -/
def checkPostStmt (ce : ExplicitCastExprInfo) (state : ProgramState) : Option CheckerEffect :=
  if ¬ ce.subExprType.isAnyPointerType then some noEffect
  else if ¬ ce.destType.isAnyPointerType then some noEffect
  else
    let destNullability := getNullabilityAnnot ce.destType
    if destNullability = .Unspecified then some noEffect
    else if ¬ ce.castSVal.isDefinedOrUnknown then none
    else match getTrackRegion ce.castSVal false with
      | none => some noEffect
      | some region =>
        if destNullability = .Nonnull ∧ getNullConstraint ce.castSVal state = .IsNull then
          some ⟨some (setNM state.nullabilityMap region ⟨.Contradicted, none⟩), false, none⟩
        else match lookupNM state.nullabilityMap region with
          | none =>
            if destNullability ≠ .Nullable then some noEffect
            else some ⟨some (setNM state.nullabilityMap region
              ⟨destNullability, some ce.castId⟩), false, none⟩
          | some tracked =>
            if tracked.value ≠ destNullability ∧ tracked.value ≠ .Contradicted then
              some ⟨some (setNM state.nullabilityMap region ⟨.Contradicted, none⟩), false, none⟩
            else some noEffect

/-- The bound statement `S` of `checkBind`: its identity, and its LHS/RHS
when it is a `BinaryOperator`. -/
structure BindStmtInfo where
  stmtId : StmtId
  binOpParts : Option (StmtId × StmtId)
deriving DecidableEq, Repr

/-- The `ValNullability` computation of `checkBind`: the static annotation
of the bound value's symbol type, `Unspecified` when the value wraps no
symbol. -/
def valNullabilityOf (vval : SVal) : Nullability :=
  match vval.asSymbolType with
  | some symType => getNullabilityAnnot symType
  | none => Nullability.Unspecified

/-- `checkBind`. -/
def checkBind (filter : NullabilityChecksFilter) (lval vval : SVal)
    (s : BindStmtInfo) (state : ProgramState) : CheckerEffect :=
  match lval.asRegion >>= MemRegion.typedValueType with
  | none => noEffect
  | some locType =>
    if ¬ locType.isAnyPointerType then noEffect
    else if ¬ vval.isDefinedOrUnknown then noEffect
    else
      let rhsNullness := getNullConstraint vval state
      let valNullability := valNullabilityOf vval
      let locNullability := getNullabilityAnnot locType
      if filter.checkNullPassedToNonnull ∧ rhsNullness = .IsNull ∧
          valNullability ≠ .Nonnull ∧ locNullability = .Nonnull then
        -- C.addTransition(State, C.getPredecessor(), &Tag): an ordinary node.
        ⟨some state.nullabilityMap, false, some ⟨.NilAssignedToNonnull, none, some s.stmtId⟩⟩
      else match getTrackRegion vval false with
        | none => noEffect
        | some valueRegion =>
          match lookupNM state.nullabilityMap valueRegion with
          | some tracked =>
            if rhsNullness = .IsNotNull ∨ tracked.value ≠ .Nullable then noEffect
            else if filter.checkNullablePassedToNonnull ∧ locNullability = .Nonnull then
              ⟨some state.nullabilityMap, false,
                some ⟨.NullableAssignedToNonnull, some valueRegion, none⟩⟩
            else noEffect
          | none =>
            if valNullability = .Nullable then
              let nullabilitySource :=
                match s.binOpParts with
                | some p => p.2
                | none => s.stmtId
              ⟨some (setNM state.nullabilityMap valueRegion
                ⟨valNullability, some nullabilitySource⟩), false, none⟩
            else if locNullability = .Nullable then
              let nullabilitySource :=
                match s.binOpParts with
                | some p => p.1
                | none => s.stmtId
              ⟨some (setNM state.nullabilityMap valueRegion
                ⟨locNullability, some nullabilitySource⟩), false, none⟩
            else noEffect

/-! ## Concrete fixtures and invariant predicates used by the claims -/

/-- A one-entry inference map whose single region is reported dead. -/
def c1Map : NullMapT := [(.symbolic 0, ⟨.Nullable, none⟩)]

/-- A state holding `c1Map`, with an unconstrained solver. -/
def c1State : ProgramState := ⟨c1Map, fun _ => .underconstrained⟩

/-- A call event whose callee declares one pointer-typed, non-pack
parameter while the call site supplies no actual argument. -/
def c10Call : CallEventInfo :=
  ⟨true, [⟨⟨true, false, none⟩, false⟩], [], []⟩

/-- An empty state with an unconstrained solver. -/
def c10State : ProgramState := ⟨[], fun _ => .underconstrained⟩

/-- A return statement returning a proven-null pointer value from a
function declared with a `Nonnull` pointer return type. -/
def c2Info : ReturnStmtInfo :=
  ⟨7, some ⟨true, false, none⟩, ⟨true, none, none⟩, some ⟨true, false, some .attrNonnull⟩⟩

/-- A state whose solver proves every value null. -/
def c2State : ProgramState := ⟨[], fun _ => .constrainedTrue⟩

/-- A bind destination: a pointer-typed variable region annotated
`Nonnull`. -/
def c7LVal : SVal := ⟨true, some (.typedValue 1 ⟨true, false, some .attrNonnull⟩), none⟩

/-- A bound value with no symbol annotation, proven null by `c2State`'s
solver. -/
def c7VVal : SVal := ⟨true, some (.symbolic 2), none⟩

/-- `Dummy *` with no nullability attribute. -/
def dummyPtr : QualType := ⟨true, false, none⟩

/-- `Dummy * _Nullable`. -/
def dummyPtrNullable : QualType := ⟨true, false, some .attrNullable⟩

/-- `Dummy * _Nonnull`. -/
def dummyPtrNonnull : QualType := ⟨true, false, some .attrNonnull⟩

/-- The symbolic region of the value returned by `returnsNullable()`. -/
def scSym : MemRegion := .symbolic 0

/-- The returned value, wrapping `scSym`. -/
def scSVal : SVal := ⟨true, some scSym, none⟩

/-- The initial empty state of the end-to-end cast scenario; the solver
proves nothing. -/
def scState0 : ProgramState := ⟨[], fun _ => .underconstrained⟩

/-- The post-call event of `returnsNullable()` (declared in a non-CG
file). -/
def scPostCall : PostCallInfo :=
  ⟨true, .ordinary, some dummyPtrNullable, scSVal, ['t', 'e', 's', 't']⟩

/-- The map after the post-call capture: `scSym` tracked `Nullable`. -/
def scMap1 : NullMapT := (checkPostCall scPostCall scState0).resultMap scState0.nullabilityMap

/-- The state after the post-call capture. -/
def scState1 : ProgramState := ⟨scMap1, fun _ => .underconstrained⟩

/-- The explicit cast `(Dummy * _Nonnull) returnsNullable()`. -/
def scCast : ExplicitCastExprInfo := ⟨5, dummyPtrNullable, dummyPtrNonnull, scSVal⟩

/-- The map after the cast: `scSym` forced `Contradicted`. -/
def scMap2 : NullMapT :=
  ((checkPostStmt scCast scState1).getD noEffect).resultMap scMap1

/-- The state after the cast. -/
def scState2 : ProgramState := ⟨scMap2, fun _ => .underconstrained⟩

/-- The destination of `Dummy *p = ...`: an unannotated pointer variable. -/
def scLVal : SVal := ⟨true, some (.typedValue 9 dummyPtr), none⟩

/-- The call `takesNonnull(p)`: one `Nonnull` pointer parameter, the tracked
value as argument. -/
def scPreCall : CallEventInfo :=
  ⟨true, [⟨dummyPtrNonnull, false⟩], [⟨6, dummyPtr⟩], [scSVal]⟩

/-- An instance message on an `NSDictionary`-named interface whose return
region is already tracked: the suppression heuristic fires before the
tracked merge. -/
def c9M : ObjCMethodCallInfo where
  hasDecl := true
  returnType := ⟨true, false, none⟩
  returnValue := ⟨true, some (.symbolic 1), none⟩
  interfaceName := ['N', 'S', 'D', 'i', 'c', 't', 'i', 'o', 'n', 'a', 'r', 'y']
  isInstanceMessage := true
  firstSelectorSlot := ['o', 'b', 'j', 'e', 'c', 't']
  paramNames := [['a', 'K', 'e', 'y']]
  isReceiverSelfOrSuper := true
  receiverSVal := unknownVal
  messageKind := .messageSend
  wasInlined := false
  messageId := 20
  instanceReceiver := none

/-- A state tracking the return region `Nullable`. -/
def c9State : ProgramState := ⟨[(.symbolic 1, ⟨.Nullable, none⟩)], fun _ => .underconstrained⟩

/-- A non-`NS` dispatch call with a tracked-`Nullable` return region and a
self (hence `Nonnull`) receiver. -/
def c9wM : ObjCMethodCallInfo where
  hasDecl := true
  returnType := ⟨true, false, some .attrNonnull⟩
  returnValue := ⟨true, some (.symbolic 2), none⟩
  interfaceName := ['T', 'O']
  isInstanceMessage := true
  firstSelectorSlot := ['f', 'o', 'o']
  paramNames := []
  isReceiverSelfOrSuper := true
  receiverSVal := unknownVal
  messageKind := .messageSend
  wasInlined := false
  messageId := 21
  instanceReceiver := none

/-- A state tracking the witness return region `Nullable`. -/
def c9wState : ProgramState := ⟨[(.symbolic 2, ⟨.Nullable, some 3⟩)], fun _ => .underconstrained⟩

/-- A call with one `Nonnull` pointer parameter whose (unannotated)
argument wraps the tracked symbolic region 0. -/
def c5Call : CallEventInfo :=
  ⟨true, [⟨⟨true, false, some .attrNonnull⟩, false⟩],
    [⟨10, ⟨true, false, none⟩⟩], [⟨true, some (.symbolic 0), none⟩]⟩

/-- A state tracking region 0 `Nullable` whose solver proves the argument
definitely null. -/
def c5State : ProgramState := ⟨[(.symbolic 0, ⟨.Nullable, none⟩)], fun _ => .constrainedTrue⟩

/-- The C5 witness call: like `c5Call` but with an unconstraining solver,
so the definite-null pre-check cannot fire. -/
def c5wState : ProgramState := ⟨[(.symbolic 0, ⟨.Nullable, none⟩)], fun _ => .underconstrained⟩

/-- Every location tracked `Contradicted` in `orig` is still tracked with
value `Contradicted` in `result`. -/
def preservesContradicted (orig result : NullMapT) : Prop :=
  ∀ r ts, lookupNM orig r = some ts → ts.value = .Contradicted →
    ∃ ts', lookupNM result r = some ts' ∧ ts'.value = .Contradicted

/-- A state tracking region 5 as `Contradicted`. -/
def c3State : ProgramState := ⟨[(.symbolic 5, ⟨.Contradicted, none⟩)], fun _ => .underconstrained⟩

/-- Every entry of the map has value `Nullable` or `Contradicted`. -/
def SparseMap (m : NullMapT) : Prop :=
  ∀ r ts, lookupNM m r = some ts → ts.value = .Nullable ∨ ts.value = .Contradicted

/-! ## Basic lemmas about the embedding -/

theorem lookupNM_setNM (m : NullMapT) (r : MemRegion) (v : NullabilityState) (q : MemRegion) :
    lookupNM (setNM m r v) q = if r = q then some v else lookupNM m q := by
  induction m with
  | nil => simp [setNM, lookupNM]
  | cons e rest ih =>
    obtain ⟨r', v'⟩ := e
    by_cases h : r' = r
    · subst h
      by_cases hq : r' = q
      · subst hq
        simp [setNM, lookupNM]
      · simp [setNM, lookupNM, hq]
    · by_cases hq : r' = q
      · subst hq
        have hne : ¬ (r = r') := fun hh => h hh.symm
        simp [setNM, lookupNM, h, hne]
      · simp [setNM, lookupNM, h, hq, ih]

@[simp]
theorem resultMap_noEffect (m : NullMapT) : noEffect.resultMap m = m := rfl

@[simp]
theorem resultMap_mk_some (m m' : NullMapT) (s : Bool) (r : Option BugReportInfo) :
    (CheckerEffect.mk (some m') s r).resultMap m = m' := rfl

@[simp]
theorem getMostNullable_contradicted (x : Nullability) :
    getMostNullable .Contradicted x = .Contradicted := by
  cases x <;> rfl

theorem getMostNullable_sparse (a b : Nullability)
    (h : a = .Nullable ∨ a = .Contradicted) :
    getMostNullable a b = .Nullable ∨ getMostNullable a b = .Contradicted := by
  rcases h with h | h <;> subst h <;> cases b <;> simp [getMostNullable, Nullability.toChar,
    Nullability.ofChar]

/-! ## Claim C6: the lattice merge operator -/

/-- Claim C6: `getMostNullable` is a total operator returning the
order-minimum of its operands under the enumerator ranking
`Contradicted < Nullable < Unspecified < Nonnull`; it is commutative and
idempotent, and `Contradicted` is absorbing. -/
theorem claim_C6 :
    (∀ a b : Nullability, getMostNullable a b = if a.toChar ≤ b.toChar then a else b) ∧
    (∀ a b : Nullability, getMostNullable a b = getMostNullable b a) ∧
    (∀ a : Nullability, getMostNullable a a = a) ∧
    (∀ a : Nullability, getMostNullable .Contradicted a = .Contradicted) := by
  refine ⟨?_, ?_, ?_, ?_⟩
  · intro a b; cases a <;> cases b <;> rfl
  · intro a b; cases a <;> cases b <;> rfl
  · intro a; cases a <;> rfl
  · intro a; cases a <;> rfl

/-! ## Claim C1: the liveness sweep -/

/-- Claim C1: FALSE of the code. `checkDeadSymbols` computes the sweep into
a local state but never commits it (`C.addTransition` is missing), so a
tracked region that the engine reports dead is still found by a lookup in
the path's resulting program state, although the local sweep had removed
it. -/
theorem claim_C1 :
    lookupNM ((checkDeadSymbols (fun _ => false) c1State).resultMap c1State.nullabilityMap)
      (.symbolic 0) = some ⟨.Nullable, none⟩ ∧
    (checkDeadSymbols (fun _ => false) c1State).committed = none ∧
    checkDeadSymbolsLocalState (fun _ => false) c1State.nullabilityMap = [] := by
  exact ⟨rfl, rfl, rfl⟩

/-! ## Claim C10: the null `ArgExpr` dereference in `checkPreCall` -/

/-- Claim C10: FALSE of the code. For a pointer-typed non-pack parameter
with no matching actual argument, `ArgExpr` stays the null pointer (and
`getArgSVal` yields `UnknownVal`, which is defined-or-unknown), yet the code
evaluates `ArgExpr->getType()` unconditionally: the modelled callback hits
the null dereference (`none`). -/
theorem claim_C10 :
    checkPreCall allChecks c10Call c10State = none ∧
    c10Call.params.length = 1 ∧
    c10Call.getNumArgs = 0 ∧
    (c10Call.getArgSVal 0).isDefinedOrUnknown = true := by
  exact ⟨rfl, rfl, rfl, rfl⟩

/-! ## Claim C2: null returned from a Nonnull function -/

/-- Claim C2: FALSE as stated. At a concrete return of a proven-null value
from a `Nonnull`-returning function, the rule does report
`NilReturnedToNonnull`, but the report is attached to an ordinary
transition node (`C.addTransition`), not to a sink: `isSink` is `false`,
so exploration of the path does not stop there. -/
theorem claim_C2_counterexample :
    getNullConstraint c2Info.retSVal c2State = .IsNull ∧
    (c2Info.funcReturnType.map getNullabilityAnnot) = some .Nonnull ∧
    (checkPreStmt allChecks c2Info c2State).report =
      some ⟨.NilReturnedToNonnull, none, some 7⟩ ∧
    (checkPreStmt allChecks c2Info c2State).isSink = false := by
  exact ⟨rfl, rfl, rfl, rfl⟩

/-- Claim C2 (amended): whenever the returned pointer value is proven
definitely null and the enclosing routine's declared return type is
annotated `Nonnull` (with the check family enabled), the return-statement
rule reports `null-returned-to-nonnull` citing the return statement — but
the violation is advisory: the report rides an ordinary transition node
carrying the unchanged map, not a sink. -/
theorem claim_C2_amended (filter : NullabilityChecksFilter) (s : ReturnStmtInfo)
    (state : ProgramState) (retType funcRetType : QualType)
    (h1 : filter.checkNullReturnedFromNonnull = true)
    (h2 : s.retExprType = some retType)
    (h3 : retType.isAnyPointerType = true)
    (h4 : s.retSVal.isDefinedOrUnknown = true)
    (h5 : s.funcReturnType = some funcRetType)
    (h6 : getNullConstraint s.retSVal state = .IsNull)
    (h7 : getNullabilityAnnot funcRetType = .Nonnull) :
    checkPreStmt filter s state =
      ⟨some state.nullabilityMap, false, some ⟨.NilReturnedToNonnull, none, some s.stmtId⟩⟩ := by
  simp [checkPreStmt, h1, h2, h3, h4, h5, h6, h7]

/-- Witness for C2 (amended), at the concrete counterexample input. -/
theorem claim_C2_witness :
    checkPreStmt allChecks c2Info c2State =
      ⟨some c2State.nullabilityMap, false, some ⟨.NilReturnedToNonnull, none, some 7⟩⟩ :=
  claim_C2_amended allChecks c2Info c2State ⟨true, false, none⟩
    ⟨true, false, some .attrNonnull⟩ rfl rfl rfl rfl rfl rfl rfl

/-! ## Claim C7: null assigned to a Nonnull location -/

/-- Claim C7: whenever the bound value is proven definitely null, the
destination's value type is pointer-like and annotated `Nonnull`, and the
value's own static annotation is not `Nonnull` (check family enabled), the
bind rule reports `null-assigned-to-nonnull` citing the bind statement, on
an ordinary transition carrying the unchanged map — advisory, no sink. -/
theorem claim_C7 (filter : NullabilityChecksFilter) (lval vval : SVal)
    (s : BindStmtInfo) (state : ProgramState) (locType : QualType)
    (h0 : filter.checkNullPassedToNonnull = true)
    (h1 : lval.asRegion >>= MemRegion.typedValueType = some locType)
    (h2 : locType.isAnyPointerType = true)
    (h3 : vval.isDefinedOrUnknown = true)
    (h4 : getNullConstraint vval state = .IsNull)
    (h5 : valNullabilityOf vval ≠ .Nonnull)
    (h6 : getNullabilityAnnot locType = .Nonnull) :
    checkBind filter lval vval s state =
      ⟨some state.nullabilityMap, false, some ⟨.NilAssignedToNonnull, none, some s.stmtId⟩⟩ := by
  simp [checkBind, h0, h1, h2, h3, h4, h5, h6]

/-- Witness for C7 at a concrete assignment. -/
theorem claim_C7_witness :
    checkBind allChecks c7LVal c7VVal ⟨42, none⟩ c2State =
      ⟨some c2State.nullabilityMap, false, some ⟨.NilAssignedToNonnull, none, some 42⟩⟩ :=
  claim_C7 allChecks c7LVal c7VVal ⟨42, none⟩ c2State ⟨true, false, some .attrNonnull⟩
    rfl rfl rfl rfl rfl (by decide) rfl

/-! ## Claim C8: explicit casts as the trust boundary -/

/-- Claim C8: an explicit pointer-to-pointer cast whose destination type
carries no nullability annotation leaves the inference state untouched; a
cast whose destination disagrees with a tracked value that is not already
`Contradicted` forces the tracked value to `Contradicted`; consequently a
nullable-returning call whose result is cast to `Nonnull` and then passed
to a `Nonnull` parameter produces no report. -/
theorem claim_C8 :
    (∀ (ce : ExplicitCastExprInfo) (state : ProgramState),
      getNullabilityAnnot ce.destType = .Unspecified →
      checkPostStmt ce state = some noEffect) ∧
    (∀ (ce : ExplicitCastExprInfo) (state : ProgramState) (region : MemRegion)
      (tracked : NullabilityState),
      ce.subExprType.isAnyPointerType = true →
      ce.destType.isAnyPointerType = true →
      getNullabilityAnnot ce.destType ≠ .Unspecified →
      ce.castSVal.isDefinedOrUnknown = true →
      getTrackRegion ce.castSVal false = some region →
      lookupNM state.nullabilityMap region = some tracked →
      tracked.value ≠ getNullabilityAnnot ce.destType →
      tracked.value ≠ .Contradicted →
      ∃ eff, checkPostStmt ce state = some eff ∧
        lookupNM (eff.resultMap state.nullabilityMap) region =
          some ⟨.Contradicted, none⟩) ∧
    (lookupNM scMap1 scSym = some ⟨.Nullable, none⟩ ∧
      lookupNM scMap2 scSym = some ⟨.Contradicted, none⟩ ∧
      checkBind allChecks scLVal scSVal ⟨7, none⟩ scState2 = noEffect ∧
      checkPreCall allChecks scPreCall scState2 = some noEffect) := by
  refine ⟨?_, ?_, rfl, rfl, rfl, rfl⟩
  · intro ce state h
    simp only [checkPostStmt, h]
    split
    · rfl
    · split
      · rfl
      · simp
  · intro ce state region tracked h1 h2 h3 h4 h5 h6 h7 h8
    have hrun : checkPostStmt ce state =
        some ⟨some (setNM state.nullabilityMap region ⟨.Contradicted, none⟩), false, none⟩ := by
      by_cases hc : (getNullabilityAnnot ce.destType = Nullability.Nonnull ∧
          getNullConstraint ce.castSVal state = NullConstraint.IsNull)
      · simp [checkPostStmt, h1, h2, h3, h4, h5, h6, hc]
      · simp [checkPostStmt, h1, h2, h3, h4, h5, h6, hc, h7, h8]
    refine ⟨_, hrun, ?_⟩
    rw [resultMap_mk_some, lookupNM_setNM, if_pos rfl]

/-- Witness for C8's tracked-disagreeing-cast part, at the concrete
scenario cast. -/
theorem claim_C8_witness :
    ∃ eff, checkPostStmt scCast scState1 = some eff ∧
      lookupNM (eff.resultMap scState1.nullabilityMap) scSym =
        some ⟨.Contradicted, none⟩ :=
  claim_C8.2.1 scCast scState1 scSym ⟨.Nullable, none⟩ rfl rfl (by decide) rfl rfl rfl
    (by decide) (by decide)

/-! ## Claim C9: dispatch-result merge -/

/-- Claim C9: FALSE as stated. For a dispatch call matched by the
`NSDictionary` suppression heuristic whose return region is already tracked
`Nullable` with a `Nonnull` (self) receiver, the final tracked value is
`Contradicted`, which differs from
`mostNullable(trackedReturnValue, receiverNullability) = Nullable`. -/
theorem claim_C9_counterexample :
    lookupNM c9State.nullabilityMap (.symbolic 1) = some ⟨.Nullable, none⟩ ∧
    getReceiverNullability c9M c9State = .Nonnull ∧
    lookupNM ((checkPostObjCMessage c9M c9State).resultMap c9State.nullabilityMap)
      (.symbolic 1) = some ⟨.Contradicted, none⟩ ∧
    Nullability.Contradicted ≠
      getMostNullable .Nullable (getReceiverNullability c9M c9State) := by
  exact ⟨rfl, rfl, rfl, by decide⟩

/-- Claim C9 (amended): for every dispatch call *not matched by the
suppression-heuristic table* whose return location is already tracked, the
final inferred value equals `mostNullable(trackedReturnValue,
receiverNullability)`; the state is updated exactly when this differs from
the tracked value (under the sparsity invariant the merge is never
`Unspecified`), with the source attributed to the receiver; and merging a
tracked `Nullable` return with a `Nonnull` receiver never reports and
leaves the tracked entry untouched at `Nullable`. -/
theorem claim_C9_amended (m : ObjCMethodCallInfo) (state : ProgramState)
    (rr : MemRegion) (n : NullabilityState)
    (hdecl : m.hasDecl = true)
    (hptr : m.returnType.isAnyPointerType = true)
    (hrr : getTrackRegion m.returnValue false = some rr)
    (hs1 : ¬ (strStartsWith m.interfaceName nsPat = true ∧ m.isInstanceMessage = true ∧
      strContains m.interfaceName dictionaryPat = true))
    (hs2 : ¬ (strStartsWith m.interfaceName nsPat = true ∧
      strContains m.interfaceName arrayPat = true ∧
      (m.firstSelectorSlot = firstObjectSel ∨ m.firstSelectorSlot = lastObjectSel)))
    (hs3 : ¬ (strStartsWith m.interfaceName nsPat = true ∧
      strContains m.interfaceName stringPat = true ∧
      encodingName ∈ m.paramNames))
    (htr : lookupNM state.nullabilityMap rr = some n)
    (hsparse : n.value = .Nullable ∨ n.value = .Contradicted) :
    (∃ ts, lookupNM ((checkPostObjCMessage m state).resultMap state.nullabilityMap) rr =
      some ts ∧ ts.value = getMostNullable n.value (getReceiverNullability m state)) ∧
    (getMostNullable n.value (getReceiverNullability m state) ≠ n.value →
      (checkPostObjCMessage m state).committed =
        some (setNM state.nullabilityMap rr
          ⟨getMostNullable n.value (getReceiverNullability m state), m.instanceReceiver⟩)) ∧
    (getMostNullable n.value (getReceiverNullability m state) = n.value →
      checkPostObjCMessage m state = noEffect) ∧
    (checkPostObjCMessage m state).report = none ∧
    (n.value = .Nullable → getReceiverNullability m state = .Nonnull →
      checkPostObjCMessage m state = noEffect ∧
      lookupNM ((checkPostObjCMessage m state).resultMap state.nullabilityMap) rr =
        some n) := by
  have hcomp := getMostNullable_sparse n.value (getReceiverNullability m state) hsparse
  have hrun : checkPostObjCMessage m state =
      if getMostNullable n.value (getReceiverNullability m state) = n.value then noEffect
      else ⟨some (setNM state.nullabilityMap rr
        ⟨getMostNullable n.value (getReceiverNullability m state), m.instanceReceiver⟩),
        false, none⟩ := by
    by_cases hc : getMostNullable n.value (getReceiverNullability m state) = n.value
    · simp [checkPostObjCMessage, hdecl, hptr, hrr, hs1, hs2, hs3, htr, hc]
    · have hne2 : getMostNullable n.value (getReceiverNullability m state) ≠ .Unspecified := by
        rcases hcomp with h | h <;> simp [h]
      simp [checkPostObjCMessage, hdecl, hptr, hrr, hs1, hs2, hs3, htr, hc, hne2]
  by_cases hc : getMostNullable n.value (getReceiverNullability m state) = n.value
  · rw [hrun, if_pos hc]
    refine ⟨⟨n, htr, hc.symm⟩, fun hne => absurd hc hne, fun _ => rfl, rfl, fun _ _ => ⟨rfl, htr⟩⟩
  · rw [hrun, if_neg hc]
    refine ⟨⟨⟨getMostNullable n.value (getReceiverNullability m state), m.instanceReceiver⟩,
      ?_, rfl⟩, fun _ => rfl, fun heq => absurd heq hc, rfl, fun hv hrec => ?_⟩
    · rw [resultMap_mk_some, lookupNM_setNM, if_pos rfl]
    · exact absurd (by rw [hv, hrec]; rfl) hc

/-- Witness for C9 (amended): the `Nullable`-tracked, `Nonnull`-receiver
merge leaves the state untouched and reports nothing. -/
theorem claim_C9_witness :
    checkPostObjCMessage c9wM c9wState = noEffect ∧
    lookupNM ((checkPostObjCMessage c9wM c9wState).resultMap c9wState.nullabilityMap)
      (.symbolic 2) = some ⟨.Nullable, some 3⟩ :=
  (claim_C9_amended c9wM c9wState (.symbolic 2) ⟨.Nullable, some 3⟩ rfl rfl rfl
    (by decide) (by decide) (by decide) rfl (Or.inl rfl)).2.2.2.2 rfl rfl

/-! ## Claim C5: the pre-call tracked-Nullable argument checks -/

/-- Claim C5: FALSE as stated. At an argument whose tracked value is
`Nullable` and which the solver has *not* proven non-null (it proved it
null), passed to a `Nonnull` parameter, the rule reports
`NilPassedToNonnull` — the definite-null pre-check fires first — not the
claimed `NullablePassedToNonnull`. -/
theorem claim_C5_counterexample :
    lookupNM c5State.nullabilityMap (.symbolic 0) = some ⟨.Nullable, none⟩ ∧
    getNullConstraint (c5Call.getArgSVal 0) c5State ≠ .IsNotNull ∧
    getNullabilityAnnot (⟨true, false, some .attrNonnull⟩ : QualType) = .Nonnull ∧
    checkPreCall allChecks c5Call c5State =
      some ⟨some c5State.nullabilityMap, true, some ⟨.NilPassedToNonnull, none, some 10⟩⟩ ∧
    ErrorKind.NilPassedToNonnull ≠ ErrorKind.NullablePassedToNonnull := by
  exact ⟨rfl, by decide, rfl, rfl, by decide⟩

/-- Claim C5 (amended): while processing a pointer-or-reference, non-pack
parameter whose argument resolves to a location tracked `Nullable` and not
proven non-null, *provided the definite-null pre-check does not fire
first* (the solver has not proven the argument null, or its static
annotation is `Nonnull`): if the parameter is annotated `Nonnull` the loop
reports `nullable-passed-to-nonnull` on a sink; otherwise, if the
parameter has reference type, it reports `nullable-dereferenced` on a
sink. If the solver has proven the argument non-null, the argument
produces no report and processing continues with the remaining
parameters. -/
theorem claim_C5_amended (call : CallEventInfo) (state : ProgramState)
    (param : ParmVarDecl) (rest : List ParmVarDecl) (idx : Nat) (accMap : NullMapT)
    (ae : Expr) (region : MemRegion) (tracked : NullabilityState)
    (hpack : param.isParameterPack = false)
    (hargE : (if idx < call.getNumArgs then call.getArgExpr idx else none) = some ae)
    (hdef : (call.getArgSVal idx).isDefinedOrUnknown = true)
    (hptr : param.type.isAnyPointerType = true ∨ param.type.isReferenceType = true)
    (hreg : getTrackRegion (call.getArgSVal idx) false = some region)
    (htr : lookupNM accMap region = some tracked) :
    (tracked.value = .Nullable →
      getNullConstraint (call.getArgSVal idx) state ≠ .IsNotNull →
      getNullabilityAnnot param.type = .Nonnull →
      ¬ (getNullConstraint (call.getArgSVal idx) state = .IsNull ∧
        getNullabilityAnnot ae.type ≠ .Nonnull) →
      checkPreCallLoop allChecks call state (param :: rest) idx accMap =
        some ⟨some accMap, true,
          some ⟨.NullablePassedToNonnull, some region, some ae.exprId⟩⟩) ∧
    (tracked.value = .Nullable →
      getNullConstraint (call.getArgSVal idx) state ≠ .IsNotNull →
      getNullabilityAnnot param.type ≠ .Nonnull →
      param.type.isReferenceType = true →
      checkPreCallLoop allChecks call state (param :: rest) idx accMap =
        some ⟨some accMap, true,
          some ⟨.NullableDereferenced, some region, some ae.exprId⟩⟩) ∧
    (getNullConstraint (call.getArgSVal idx) state = .IsNotNull →
      checkPreCallLoop allChecks call state (param :: rest) idx accMap =
        checkPreCallLoop allChecks call state rest (idx + 1) accMap) := by
  have hpt : ¬ (param.type.isAnyPointerType = false ∧ param.type.isReferenceType = false) := by
    rcases hptr with h | h
    · intro hh
      rw [h] at hh
      cases hh.1
    · intro hh
      rw [h] at hh
      cases hh.2
  refine ⟨?_, ?_, ?_⟩
  · intro hv hnn hparam hpre
    simp [checkPreCallLoop, allChecks, hpack, hargE, hdef, hpt, hreg, htr, hv, hnn,
      hparam, hpre]
  · intro hv hnn hparam href
    simp [checkPreCallLoop, allChecks, hpack, hargE, hdef, hpt, hreg, htr, hv, hnn,
      hparam, href]
  · intro hnn
    simp [checkPreCallLoop, allChecks, hpack, hargE, hdef, hpt, hreg, htr, hnn]

/-- Witness for C5 (amended): at the concrete `Nonnull`-parameter call the
loop reports `NullablePassedToNonnull` on a sink. -/
theorem claim_C5_witness :
    checkPreCallLoop allChecks c5Call c5wState
      [⟨⟨true, false, some .attrNonnull⟩, false⟩] 0 c5wState.nullabilityMap =
      some ⟨some c5wState.nullabilityMap, true,
        some ⟨.NullablePassedToNonnull, some (.symbolic 0), some 10⟩⟩ :=
  (claim_C5_amended c5Call c5wState ⟨⟨true, false, some .attrNonnull⟩, false⟩ [] 0
    c5wState.nullabilityMap ⟨10, ⟨true, false, none⟩⟩ (.symbolic 0) ⟨.Nullable, none⟩
    rfl rfl rfl (Or.inl rfl) rfl rfl).1 rfl (by decide) rfl (by decide)

/-! ## Claim C3: `Contradicted` is absorbing -/

theorem preservesContradicted_refl (m : NullMapT) : preservesContradicted m m :=
  fun _ ts h hc => ⟨ts, h, hc⟩

theorem preservesContradicted_set (m : NullMapT) (r : MemRegion) (v : NullabilityState)
    (hv : ∀ ts, lookupNM m r = some ts → ts.value = .Contradicted →
      v.value = .Contradicted) :
    preservesContradicted m (setNM m r v) := by
  intro q ts h hc
  by_cases hq : r = q
  · subst hq
    exact ⟨v, by rw [lookupNM_setNM, if_pos rfl], hv ts h hc⟩
  · refine ⟨ts, ?_, hc⟩
    rw [lookupNM_setNM, if_neg hq]
    exact h

theorem preservesContradicted_set_untracked (m acc : NullMapT) (r : MemRegion)
    (v : NullabilityState) (hacc : preservesContradicted m acc)
    (hnone : lookupNM acc r = none) :
    preservesContradicted m (setNM acc r v) := by
  intro q ts h hc
  obtain ⟨ts', h', hc'⟩ := hacc q ts h hc
  refine ⟨ts', ?_, hc'⟩
  have hq : ¬ r = q := by
    intro hh
    subst hh
    rw [hnone] at h'
    exact Option.noConfusion h'
  rw [lookupNM_setNM, if_neg hq]
  exact h'

theorem checkBind_pc (filter : NullabilityChecksFilter) (lval vval : SVal)
    (s : BindStmtInfo) (state : ProgramState) :
    preservesContradicted state.nullabilityMap
      ((checkBind filter lval vval s state).resultMap state.nullabilityMap) := by
  simp only [checkBind]
  repeat' split
  all_goals simp only [resultMap_noEffect, resultMap_mk_some]
  all_goals
    first
    | exact preservesContradicted_refl _
    | (apply preservesContradicted_set
       intro ts hts hc
       simp_all)

theorem checkPreStmt_pc (filter : NullabilityChecksFilter) (s : ReturnStmtInfo)
    (state : ProgramState) :
    preservesContradicted state.nullabilityMap
      ((checkPreStmt filter s state).resultMap state.nullabilityMap) := by
  simp only [checkPreStmt]
  repeat' split
  all_goals simp only [resultMap_noEffect, resultMap_mk_some]
  all_goals
    first
    | exact preservesContradicted_refl _
    | (apply preservesContradicted_set
       intro ts hts hc
       simp_all)

theorem checkPostCall_pc (call : PostCallInfo) (state : ProgramState) :
    preservesContradicted state.nullabilityMap
      ((checkPostCall call state).resultMap state.nullabilityMap) := by
  simp only [checkPostCall]
  repeat' split
  all_goals simp only [resultMap_noEffect, resultMap_mk_some]
  all_goals
    first
    | exact preservesContradicted_refl _
    | (apply preservesContradicted_set
       intro ts hts hc
       first
       | rfl
       | simp_all)

theorem checkPostStmt_pc (ce : ExplicitCastExprInfo) (state : ProgramState)
    (eff : CheckerEffect) (h : checkPostStmt ce state = some eff) :
    preservesContradicted state.nullabilityMap (eff.resultMap state.nullabilityMap) := by
  simp only [checkPostStmt] at h
  repeat' split at h
  all_goals
    first
    | exact Option.noConfusion h
    | (obtain rfl := Option.some.inj h
       simp only [resultMap_noEffect, resultMap_mk_some]
       first
       | exact preservesContradicted_refl _
       | (apply preservesContradicted_set
          intro ts hts hc
          first
          | rfl
          | simp_all))

theorem checkPostObjCMessage_pc (m : ObjCMethodCallInfo) (state : ProgramState) :
    preservesContradicted state.nullabilityMap
      ((checkPostObjCMessage m state).resultMap state.nullabilityMap) := by
  simp only [checkPostObjCMessage]
  repeat' split
  all_goals simp only [resultMap_noEffect, resultMap_mk_some]
  all_goals
    first
    | exact preservesContradicted_refl _
    | (apply preservesContradicted_set
       intro ts hts hc
       first
       | rfl
       | simp_all)

theorem checkPreCallLoop_pc (filter : NullabilityChecksFilter) (call : CallEventInfo)
    (state : ProgramState) (ps : List ParmVarDecl) (idx : Nat) (accMap : NullMapT)
    (eff : CheckerEffect)
    (hacc : preservesContradicted state.nullabilityMap accMap)
    (h : checkPreCallLoop filter call state ps idx accMap = some eff) :
    preservesContradicted state.nullabilityMap (eff.resultMap state.nullabilityMap) := by
  induction ps generalizing idx accMap with
  | nil =>
    simp only [checkPreCallLoop, finishPreCall] at h
    split at h
    · obtain rfl := Option.some.inj h
      simpa using hacc
    · obtain rfl := Option.some.inj h
      simpa using preservesContradicted_refl _
  | cons param rest ih =>
    simp only [checkPreCallLoop] at h
    split at h
    · simp only [finishPreCall] at h
      split at h
      · obtain rfl := Option.some.inj h
        simpa using hacc
      · obtain rfl := Option.some.inj h
        simpa using preservesContradicted_refl _
    · split at h
      · exact ih _ _ hacc h
      · split at h
        · exact ih _ _ hacc h
        · split at h
          · exact Option.noConfusion h
          · split at h
            · obtain rfl := Option.some.inj h
              simpa using hacc
            · split at h
              · exact ih _ _ hacc h
              · split at h
                · split at h
                  · exact ih _ _ hacc h
                  · split at h
                    · obtain rfl := Option.some.inj h
                      simpa using hacc
                    · split at h
                      · obtain rfl := Option.some.inj h
                        simpa using hacc
                      · exact ih _ _ hacc h
                · split at h
                  · exact ih _ _ hacc h
                  · refine ih _ _ ?_ h
                    apply preservesContradicted_set_untracked _ _ _ _ hacc
                    assumption

theorem checkPreCall_pc (filter : NullabilityChecksFilter) (call : CallEventInfo)
    (state : ProgramState) (eff : CheckerEffect)
    (h : checkPreCall filter call state = some eff) :
    preservesContradicted state.nullabilityMap (eff.resultMap state.nullabilityMap) := by
  simp only [checkPreCall] at h
  split at h
  · obtain rfl := Option.some.inj h
    exact preservesContradicted_refl _
  · exact checkPreCallLoop_pc filter call state call.params 0 state.nullabilityMap eff
      (preservesContradicted_refl _) h

/-- Claim C3: `Contradicted` is absorbing — across the bind, pre-call,
post-call, return, explicit-cast and dispatch-result-merge rules, a
location tracked `Contradicted` before the rule is still tracked with
value `Contradicted` in the path's resulting state. -/
theorem claim_C3 :
    (∀ filter lval vval s state, preservesContradicted state.nullabilityMap
      ((checkBind filter lval vval s state).resultMap state.nullabilityMap)) ∧
    (∀ filter call state eff, checkPreCall filter call state = some eff →
      preservesContradicted state.nullabilityMap (eff.resultMap state.nullabilityMap)) ∧
    (∀ call state, preservesContradicted state.nullabilityMap
      ((checkPostCall call state).resultMap state.nullabilityMap)) ∧
    (∀ filter s state, preservesContradicted state.nullabilityMap
      ((checkPreStmt filter s state).resultMap state.nullabilityMap)) ∧
    (∀ ce state eff, checkPostStmt ce state = some eff →
      preservesContradicted state.nullabilityMap (eff.resultMap state.nullabilityMap)) ∧
    (∀ m state, preservesContradicted state.nullabilityMap
      ((checkPostObjCMessage m state).resultMap state.nullabilityMap)) :=
  ⟨checkBind_pc, checkPreCall_pc, checkPostCall_pc, checkPreStmt_pc, checkPostStmt_pc,
    checkPostObjCMessage_pc⟩

/-- Witness for C3, at a concrete bind over a `Contradicted` entry. -/
theorem claim_C3_witness :
    ∃ ts', lookupNM ((checkBind allChecks c7LVal c7VVal ⟨1, none⟩ c3State).resultMap
      c3State.nullabilityMap) (.symbolic 5) = some ts' ∧ ts'.value = .Contradicted :=
  claim_C3.1 allChecks c7LVal c7VVal ⟨1, none⟩ c3State (.symbolic 5)
    ⟨.Contradicted, none⟩ rfl rfl

/-! ## Claim C4: the sparsity invariant -/

theorem sparseMap_nil : SparseMap [] := by
  intro r ts h
  simp [lookupNM] at h

theorem sparseMap_set (m : NullMapT) (r : MemRegion) (v : NullabilityState)
    (hm : SparseMap m) (hv : v.value = .Nullable ∨ v.value = .Contradicted) :
    SparseMap (setNM m r v) := by
  intro q ts h
  rw [lookupNM_setNM] at h
  by_cases hq : r = q
  · rw [if_pos hq] at h
    obtain rfl := Option.some.inj h
    exact hv
  · rw [if_neg hq] at h
    exact hm q ts h

theorem checkBind_sparse (filter : NullabilityChecksFilter) (lval vval : SVal)
    (s : BindStmtInfo) (state : ProgramState) (hm : SparseMap state.nullabilityMap) :
    SparseMap ((checkBind filter lval vval s state).resultMap state.nullabilityMap) := by
  simp only [checkBind]
  repeat' split
  all_goals simp only [resultMap_noEffect, resultMap_mk_some]
  all_goals
    first
    | exact hm
    | (apply sparseMap_set _ _ _ hm
       first
       | (left; assumption)
       | (right; rfl)
       | simp_all)

theorem checkPreStmt_sparse (filter : NullabilityChecksFilter) (s : ReturnStmtInfo)
    (state : ProgramState) (hm : SparseMap state.nullabilityMap) :
    SparseMap ((checkPreStmt filter s state).resultMap state.nullabilityMap) := by
  simp only [checkPreStmt]
  repeat' split
  all_goals simp only [resultMap_noEffect, resultMap_mk_some]
  all_goals
    first
    | exact hm
    | (apply sparseMap_set _ _ _ hm
       first
       | (left; assumption)
       | (right; rfl)
       | simp_all)

theorem checkPostCall_sparse (call : PostCallInfo) (state : ProgramState)
    (hm : SparseMap state.nullabilityMap) :
    SparseMap ((checkPostCall call state).resultMap state.nullabilityMap) := by
  simp only [checkPostCall]
  repeat' split
  all_goals simp only [resultMap_noEffect, resultMap_mk_some]
  all_goals
    first
    | exact hm
    | (apply sparseMap_set _ _ _ hm
       first
       | (left; rfl)
       | (right; rfl)
       | simp_all)

theorem checkPostStmt_sparse (ce : ExplicitCastExprInfo) (state : ProgramState)
    (eff : CheckerEffect) (hm : SparseMap state.nullabilityMap)
    (h : checkPostStmt ce state = some eff) :
    SparseMap (eff.resultMap state.nullabilityMap) := by
  simp only [checkPostStmt] at h
  repeat' split at h
  all_goals
    first
    | exact Option.noConfusion h
    | (obtain rfl := Option.some.inj h
       simp only [resultMap_noEffect, resultMap_mk_some]
       first
       | exact hm
       | (apply sparseMap_set _ _ _ hm
          first
          | (left; assumption)
          | (right; rfl)
          | simp_all))

theorem checkPostObjCMessage_sparse (m : ObjCMethodCallInfo) (state : ProgramState)
    (hm : SparseMap state.nullabilityMap) :
    SparseMap ((checkPostObjCMessage m state).resultMap state.nullabilityMap) := by
  simp only [checkPostObjCMessage]
  repeat' split
  all_goals simp only [resultMap_noEffect, resultMap_mk_some]
  all_goals
    first
    | exact hm
    | (apply sparseMap_set _ _ _ hm
       first
       | (left; assumption)
       | (right; rfl)
       | (apply getMostNullable_sparse
          exact hm _ _ (by assumption))
       | simp_all)

theorem checkPreCallLoop_sparse (filter : NullabilityChecksFilter) (call : CallEventInfo)
    (state : ProgramState) (ps : List ParmVarDecl) (idx : Nat) (accMap : NullMapT)
    (eff : CheckerEffect)
    (horig : SparseMap state.nullabilityMap) (hacc : SparseMap accMap)
    (h : checkPreCallLoop filter call state ps idx accMap = some eff) :
    SparseMap (eff.resultMap state.nullabilityMap) := by
  induction ps generalizing idx accMap with
  | nil =>
    simp only [checkPreCallLoop, finishPreCall] at h
    split at h
    · obtain rfl := Option.some.inj h
      simpa using hacc
    · obtain rfl := Option.some.inj h
      simpa using horig
  | cons param rest ih =>
    simp only [checkPreCallLoop] at h
    split at h
    · simp only [finishPreCall] at h
      split at h
      · obtain rfl := Option.some.inj h
        simpa using hacc
      · obtain rfl := Option.some.inj h
        simpa using horig
    · split at h
      · exact ih _ _ hacc h
      · split at h
        · exact ih _ _ hacc h
        · split at h
          · exact Option.noConfusion h
          · split at h
            · obtain rfl := Option.some.inj h
              simpa using hacc
            · split at h
              · exact ih _ _ hacc h
              · split at h
                · split at h
                  · exact ih _ _ hacc h
                  · split at h
                    · obtain rfl := Option.some.inj h
                      simpa using hacc
                    · split at h
                      · obtain rfl := Option.some.inj h
                        simpa using hacc
                      · exact ih _ _ hacc h
                · split at h
                  · exact ih _ _ hacc h
                  · refine ih _ _ ?_ h
                    apply sparseMap_set _ _ _ hacc
                    left
                    simp_all

theorem checkPreCall_sparse (filter : NullabilityChecksFilter) (call : CallEventInfo)
    (state : ProgramState) (eff : CheckerEffect) (hm : SparseMap state.nullabilityMap)
    (h : checkPreCall filter call state = some eff) :
    SparseMap (eff.resultMap state.nullabilityMap) := by
  simp only [checkPreCall] at h
  split at h
  · obtain rfl := Option.some.inj h
    exact hm
  · exact checkPreCallLoop_sparse filter call state call.params 0 state.nullabilityMap eff
      hm hm h

/-- Claim C4: the sparsity invariant — the initial empty map is sparse and
every update rule (bind, pre-call, post-call, return, explicit cast,
dispatch-result merge, liveness sweep) preserves it: every entry it
materializes has value `Nullable` or `Contradicted`, never `Unspecified`
or `Nonnull`. -/
theorem claim_C4 :
    SparseMap [] ∧
    (∀ filter lval vval s state, SparseMap state.nullabilityMap →
      SparseMap ((checkBind filter lval vval s state).resultMap state.nullabilityMap)) ∧
    (∀ filter call state eff, SparseMap state.nullabilityMap →
      checkPreCall filter call state = some eff →
      SparseMap (eff.resultMap state.nullabilityMap)) ∧
    (∀ call state, SparseMap state.nullabilityMap →
      SparseMap ((checkPostCall call state).resultMap state.nullabilityMap)) ∧
    (∀ filter s state, SparseMap state.nullabilityMap →
      SparseMap ((checkPreStmt filter s state).resultMap state.nullabilityMap)) ∧
    (∀ ce state eff, SparseMap state.nullabilityMap →
      checkPostStmt ce state = some eff →
      SparseMap (eff.resultMap state.nullabilityMap)) ∧
    (∀ m state, SparseMap state.nullabilityMap →
      SparseMap ((checkPostObjCMessage m state).resultMap state.nullabilityMap)) ∧
    (∀ sr state, SparseMap state.nullabilityMap →
      SparseMap ((checkDeadSymbols sr state).resultMap state.nullabilityMap)) :=
  ⟨sparseMap_nil,
    fun filter lval vval s state hm => checkBind_sparse filter lval vval s state hm,
    fun filter call state eff hm h => checkPreCall_sparse filter call state eff hm h,
    fun call state hm => checkPostCall_sparse call state hm,
    fun filter s state hm => checkPreStmt_sparse filter s state hm,
    fun ce state eff hm h => checkPostStmt_sparse ce state eff hm h,
    fun m state hm => checkPostObjCMessage_sparse m state hm,
    fun _ _ hm => hm⟩

/-- Witness for C4: the map produced by the concrete post-call capture of a
nullable-returning call is sparse. -/
theorem claim_C4_witness :
    SparseMap ((checkPostCall scPostCall scState0).resultMap scState0.nullabilityMap) :=
  claim_C4.2.2.2.1 scPostCall scState0 claim_C4.1

end NullabilityCheckerModel
